import Mathlib

/-!
# Verification of the nginx-config-builder serialization core

Shallow embedding of the block composition and serialization engine of the
`nginx-config-builder` TypeScript library.  Strings are modelled by Lean
`String`; JavaScript `Array.prototype.join` is modelled by `joinStr`,
`String.prototype.trim` truthiness by `jsTrim`, and `Object.assign` on the
typed-option record by `applyTypedDirectives` over a patch record whose
fields distinguish "key absent" (`none`) from "key present mapping to
undefined" (`some none`).
-/

namespace NginxCfg

/-- Model of JavaScript `Array.prototype.join(sep)`: empty array yields the
empty string, otherwise elements are interleaved with the separator. -/
def joinStr (sep : String) : List String → String
  | [] => ""
  | [x] => x
  | x :: y :: xs => x ++ sep ++ joinStr sep (y :: xs)

/-- Model of JavaScript `String.prototype.trim`: drop whitespace characters
from both ends of the character list. -/
def jsTrim (s : String) : String :=
  ⟨((s.data.dropWhile Char.isWhitespace).reverse.dropWhile Char.isWhitespace).reverse⟩

/-- Model of `directive.endsWith(";")`: the final character is a semicolon. -/
def jsEndsWithSemi (s : String) : Bool :=
  match s.data.getLast? with
  | some c => c == ';'
  | none => false

/-- `Block.addDirective` normalization step: append a semicolon unless the
directive already ends with one (src/blocks/block.ts). -/
def normalizeDirective (d : String) : String :=
  if jsEndsWithSemi d then d else d ++ ";"

/-- `Block.addDirective` acting on the directive store: normalize, then push. -/
def addDirective (l : List String) (d : String) : List String :=
  l ++ [normalizeDirective d]

/-- `Block.formatDirectives`: prefix every stored directive with the indent
and join with newlines (src/blocks/block.ts). -/
def formatDirectives (indent : String) (l : List String) : String :=
  joinStr "\n" (l.map (fun d => indent ++ d))

/-! ## Data model: the block tree -/

/-- The abstract `Block` base: an ordered directive store. -/
structure Block where
  directives : List String := []
  deriving Repr, DecidableEq

/-- `Block.addDirective` as a state transformer. -/
def Block.addDirective (b : Block) (d : String) : Block :=
  { b with directives := NginxCfg.addDirective b.directives d }

/-- `IfBlock` (src/blocks/if-block.ts): directives plus a condition fixed at
construction. -/
structure IfBlock where
  condition : String
  directives : List String := []
  deriving Repr, DecidableEq

/-- `IfBlock.build`. -/
def IfBlock.build (b : IfBlock) (indent : String) : String :=
  let inner := joinStr "\n" (b.directives.map (fun d => indent ++ "    " ++ d))
  indent ++ "if (" ++ b.condition ++ ") \x7b\n" ++ inner ++ "\n" ++ indent ++ "\x7d"

/-- `LocationBlock` (src/blocks/location-block.ts): match path, exact-match
flag, directive store and child if-blocks. -/
structure LocationBlock where
  path : String
  exact : Bool := false
  directives : List String := []
  ifBlocks : List IfBlock := []
  deriving Repr, DecidableEq

/-- `LocationBlock.addDirective`. -/
def LocationBlock.addDirective (b : LocationBlock) (d : String) : LocationBlock :=
  { b with directives := NginxCfg.addDirective b.directives d }

/-- `LocationBlock.addHeader`: appends one `add_header` directive. -/
def LocationBlock.addHeader (b : LocationBlock) (name value : String) : LocationBlock :=
  b.addDirective ("add_header " ++ name ++ " " ++ value)

/-- `LocationBlock.build`. -/
def LocationBlock.build (b : LocationBlock) (indent : String) : String :=
  let blockIndent := indent ++ "    "
  let pfx := if b.exact then "=" else ""
  let directives := formatDirectives blockIndent b.directives
  let ifs := joinStr "\n\n" (b.ifBlocks.map (fun ib => ib.build blockIndent))
  indent ++ "location " ++ pfx ++ " " ++ b.path ++ " \x7b\n" ++ directives ++
    (if ifs != "" then "\n\n" ++ ifs else "") ++ "\n" ++ indent ++ "\x7d"

/-- `ServerBlock` (src/blocks/server-block.ts): directive store plus child
location blocks. -/
structure ServerBlock where
  directives : List String := []
  locations : List LocationBlock := []
  deriving Repr, DecidableEq

/-- `ServerBlock.addDirective`. -/
def ServerBlock.addDirective (b : ServerBlock) (d : String) : ServerBlock :=
  { b with directives := NginxCfg.addDirective b.directives d }

/-- `ServerBlock.listen`: both branches of the source emit the same line. -/
def ServerBlock.listen (b : ServerBlock) (portOrUnix : String) (ssl : Bool) : ServerBlock :=
  b.addDirective ("listen " ++ portOrUnix ++ (if ssl then " ssl" else ""))

/-- `ServerBlock.addLocation` appends a fresh location block. -/
def ServerBlock.addLocation (b : ServerBlock) (path : String) (exact : Bool) :
    ServerBlock × LocationBlock :=
  let loc : LocationBlock := { path := path, exact := exact }
  ({ b with locations := b.locations ++ [loc] }, loc)

/-- `ServerBlock.build`. -/
def ServerBlock.build (b : ServerBlock) (indent : String) : String :=
  let blockIndent := indent ++ "    "
  let directives := formatDirectives blockIndent b.directives
  let locations := joinStr "\n\n" (b.locations.map (fun loc => loc.build blockIndent))
  indent ++ "server \x7b\n" ++ directives ++
    (if locations != "" then "\n\n" ++ locations else "") ++ "\n" ++ indent ++ "\x7d"

/-- Options accepted by `UpstreamBlock.server` (src/blocks/upstream-block.ts). -/
structure ServerOptions where
  weight : Option Nat := none
  maxFails : Option Nat := none
  failTimeout : Option String := none
  backup : Option Bool := none
  down : Option Bool := none
  deriving Repr, DecidableEq

/-- `UpstreamBlock`: pool name plus directive store. -/
structure UpstreamBlock where
  name : String
  directives : List String := []
  deriving Repr, DecidableEq

/-- `UpstreamBlock.addDirective`. -/
def UpstreamBlock.addDirective (b : UpstreamBlock) (d : String) : UpstreamBlock :=
  { b with directives := NginxCfg.addDirective b.directives d }

/-- `UpstreamBlock.server`: assemble one `server` directive with the fixed
modifier order weight, max_fails, fail_timeout, backup, down.  A `failTimeout`
supplied as the empty string is falsy in the source and hence omitted;
`backup`/`down` are emitted only when supplied as `true`. -/
def UpstreamBlock.server (u : UpstreamBlock) (address : String)
    (options : ServerOptions) : UpstreamBlock :=
  let parts := [address]
    ++ (match options.weight with
        | some w => ["weight=" ++ toString w]
        | none => [])
    ++ (match options.maxFails with
        | some m => ["max_fails=" ++ toString m]
        | none => [])
    ++ (match options.failTimeout with
        | some f => if f != "" then ["fail_timeout=" ++ f] else []
        | none => [])
    ++ (if options.backup.getD false then ["backup"] else [])
    ++ (if options.down.getD false then ["down"] else [])
  u.addDirective ("server " ++ joinStr " " parts)

/-- `UpstreamBlock.build`. -/
def UpstreamBlock.build (b : UpstreamBlock) (indent : String) : String :=
  let blockIndent := indent ++ "    "
  let directives := formatDirectives blockIndent b.directives
  indent ++ "upstream " ++ b.name ++ " \x7b\n" ++ directives ++ "\n" ++ indent ++ "\x7d"

/-- One `key value;` pair of a map block. -/
structure MapItem where
  key : String
  value : String
  deriving Repr, DecidableEq

/-- `MapBlock` (src/blocks/map-block.ts): source and output variable names
fixed at construction plus the ordered pair list. -/
structure MapBlock where
  srcVariable : String
  outputVar : String
  items : List MapItem := []
  deriving Repr, DecidableEq

/-- `MapBlock.build`. -/
def MapBlock.build (b : MapBlock) (indent : String) : String :=
  let items := joinStr "\n" (b.items.map (fun i => indent ++ i.key ++ " " ++ i.value ++ ";"))
  indent ++ "map " ++ b.srcVariable ++ " " ++ b.outputVar ++ " \x7b\n" ++ items ++
    "\n" ++ indent ++ "\x7d"

/-- `EventsBlock` (src/blocks/events-block.ts): a plain directive store. -/
structure EventsBlock where
  directives : List String := []
  deriving Repr, DecidableEq

/-- `EventsBlock.build`: note the fixed four-space body indent and that no
outer indent parameter exists in the source. -/
def EventsBlock.build (b : EventsBlock) : String :=
  let directives := formatDirectives "    " b.directives
  "events \x7b\n" ++ directives ++ "\n\x7d"

/-! ## The HTTP block and its typed option set -/

/-- `HttpTypedDirectives` (src/blocks/http-block.ts): the sparse typed option
record.  `none` means the key is absent / holds `undefined`. -/
structure HttpTypedDirectives where
  sendfile : Option Bool := none
  keepalive_timeout : Option Nat := none
  client_max_body_size : Option String := none
  default_type : Option String := none
  gzip : Option Bool := none
  gzip_types : Option (List String) := none
  tcp_nopush : Option Bool := none
  tcp_nodelay : Option Bool := none
  deriving Repr, DecidableEq

/-- Argument of `applyTypedDirectives` (`Partial<HttpTypedDirectives>`): the
outer `Option` records whether the key is an own property of the argument
object, the inner `Option` its value (`some none` = explicitly `undefined`). -/
structure HttpTypedPatch where
  sendfile : Option (Option Bool) := none
  keepalive_timeout : Option (Option Nat) := none
  client_max_body_size : Option (Option String) := none
  default_type : Option (Option String) := none
  gzip : Option (Option Bool) := none
  gzip_types : Option (Option (List String)) := none
  tcp_nopush : Option (Option Bool) := none
  tcp_nodelay : Option (Option Bool) := none
  deriving Repr, DecidableEq

/-- `HttpBlock.applyTypedDirectives`: `Object.assign` copies every own
property of the patch, including properties explicitly set to `undefined`. -/
def applyTypedDirectives (t : HttpTypedDirectives) (d : HttpTypedPatch) :
    HttpTypedDirectives where
  sendfile := d.sendfile.getD t.sendfile
  keepalive_timeout := d.keepalive_timeout.getD t.keepalive_timeout
  client_max_body_size := d.client_max_body_size.getD t.client_max_body_size
  default_type := d.default_type.getD t.default_type
  gzip := d.gzip.getD t.gzip
  gzip_types := d.gzip_types.getD t.gzip_types
  tcp_nopush := d.tcp_nopush.getD t.tcp_nopush
  tcp_nodelay := d.tcp_nodelay.getD t.tcp_nodelay

/-- `HttpBlock.buildTypedDirectives`: renders the present options in the fixed
schema field order.  String options are guarded by JS truthiness (non-empty),
`gzip_types` additionally by non-emptiness of the list. -/
def buildTypedDirectives (t : HttpTypedDirectives) : List String :=
  (match t.sendfile with
   | some b => ["sendfile " ++ (if b then "on" else "off") ++ ";"]
   | none => [])
  ++ (match t.keepalive_timeout with
      | some n => ["keepalive_timeout " ++ toString n ++ ";"]
      | none => [])
  ++ (match t.client_max_body_size with
      | some s => if s != "" then ["client_max_body_size " ++ s ++ ";"] else []
      | none => [])
  ++ (match t.default_type with
      | some s => if s != "" then ["default_type " ++ s ++ ";"] else []
      | none => [])
  ++ (match t.gzip with
      | some b => ["gzip " ++ (if b then "on" else "off") ++ ";"]
      | none => [])
  ++ (match t.gzip_types with
      | some l => if l.length > 0 then ["gzip_types " ++ joinStr " " l ++ ";"] else []
      | none => [])
  ++ (match t.tcp_nopush with
      | some b => ["tcp_nopush " ++ (if b then "on" else "off") ++ ";"]
      | none => [])
  ++ (match t.tcp_nodelay with
      | some b => ["tcp_nodelay " ++ (if b then "on" else "off") ++ ";"]
      | none => [])

/-- `HttpBlock`: directive store, child collections and the typed option set. -/
structure HttpBlock where
  directives : List String := []
  servers : List ServerBlock := []
  upstreams : List UpstreamBlock := []
  maps : List MapBlock := []
  typedDirectives : HttpTypedDirectives := {}
  deriving Repr, DecidableEq

/-- `HttpBlock.addDirective`. -/
def HttpBlock.addDirective (b : HttpBlock) (d : String) : HttpBlock :=
  { b with directives := NginxCfg.addDirective b.directives d }

/-- `HttpBlock.applyTypedDirectives` as a state transformer. -/
def HttpBlock.applyTypedDirectives (b : HttpBlock) (d : HttpTypedPatch) : HttpBlock :=
  { b with typedDirectives := NginxCfg.applyTypedDirectives b.typedDirectives d }

/-- The five content groups of `HttpBlock.build` in the fixed source order:
typed options, free-form directives, upstreams, maps, servers (the local
consts `typed`, `blockDirectives`, `upstreams`, `maps`, `servers`). -/
def HttpBlock.groups (b : HttpBlock) (blockIndent : String) : List String :=
  [joinStr "\n" ((buildTypedDirectives b.typedDirectives).map
      (fun d => blockIndent ++ d)),
   joinStr "\n" (b.directives.map (fun d => blockIndent ++ d)),
   joinStr "\n\n" (b.upstreams.map (fun u => u.build blockIndent)),
   joinStr "\n\n" (b.maps.map (fun m => m.build blockIndent)),
   joinStr "\n\n" (b.servers.map (fun s => s.build blockIndent))]

/-- `HttpBlock.build`: the five content groups in fixed order, each filtered
by `part.trim()` truthiness, joined with a blank line, wrapped in the
delimiters; the minimal form `http {}` when the joined body is trim-empty. -/
def HttpBlock.build (b : HttpBlock) (indent : String) : String :=
  let parts := joinStr "\n\n"
    ((b.groups (indent ++ "    ")).filter (fun p => jsTrim p != ""))
  if jsTrim parts != "" then
    indent ++ "http \x7b\n" ++ parts ++ "\n" ++ indent ++ "\x7d"
  else
    indent ++ "http \x7b\x7d"

/-! ## Document roots -/

/-- `NginxConfig` (src/nginx-config.ts): the full top-level document root. -/
structure NginxConfig where
  userDirective : Option String := none
  workerProcessesDirective : Option String := none
  pidDirective : Option String := none
  eventsBlock : Option EventsBlock := none
  httpBlock : Option HttpBlock := none
  deriving Repr, DecidableEq

/-- `NginxConfig.user`. -/
def NginxConfig.user (c : NginxConfig) (u : String) : NginxConfig :=
  { c with userDirective := some ("user " ++ u ++ ";") }

/-- `NginxConfig.workerProcesses` (string form of the argument). -/
def NginxConfig.workerProcesses (c : NginxConfig) (v : String) : NginxConfig :=
  { c with workerProcessesDirective := some ("worker_processes " ++ v ++ ";") }

/-- `NginxConfig.pid`. -/
def NginxConfig.pid (c : NginxConfig) (p : String) : NginxConfig :=
  { c with pidDirective := some ("pid " ++ p ++ ";") }

/-- The parts list assembled by `NginxConfig.build`: the truthy top-level
directives, then the events block, then the http block.  A stored directive
equal to the empty string is falsy and skipped. -/
def NginxConfig.buildParts (c : NginxConfig) : List String :=
  (match c.userDirective with
   | some s => if s != "" then [s] else []
   | none => [])
  ++ (match c.workerProcessesDirective with
      | some s => if s != "" then [s] else []
      | none => [])
  ++ (match c.pidDirective with
      | some s => if s != "" then [s] else []
      | none => [])
  ++ (match c.eventsBlock with
      | some e => [e.build]
      | none => [])
  ++ (match c.httpBlock with
      | some h => [h.build ""]
      | none => [])

/-- `NginxConfig.build`: join the parts with blank lines, append one newline. -/
def NginxConfig.build (c : NginxConfig) : String :=
  joinStr "\n\n" c.buildParts ++ "\n"

/-- `SiteConfig` (src/site-config.ts): the lighter server-only document root. -/
structure SiteConfig where
  directives : List String := []
  servers : List ServerBlock := []
  deriving Repr, DecidableEq

/-- `SiteConfig.include`: pushes an already-terminated include directive. -/
def SiteConfig.include (c : SiteConfig) (path : String) : SiteConfig :=
  { c with directives := c.directives ++ ["include " ++ path ++ ";"] }

/-- The truthy parts of `SiteConfig.build`: the re-terminated global
directives joined by newlines, and the servers joined by newlines, with
falsy (empty) parts dropped by `filter(Boolean)`. -/
def SiteConfig.buildParts (c : SiteConfig) : List String :=
  [joinStr "\n" (c.directives.map (fun d => if jsEndsWithSemi d then d else d ++ ";")),
   joinStr "\n" (c.servers.map (fun s => s.build ""))].filter (fun p => p != "")

/-- `SiteConfig.build`: join the truthy parts with newlines and append one
trailing newline. -/
def SiteConfig.build (c : SiteConfig) : String :=
  joinStr "\n" c.buildParts ++ "\n"

/-! ## CORS helper -/

/-- Options of `LocationBlock.enableCors`. -/
structure CorsOptions where
  origins : Option (List String) := none
  methods : Option (List String) := none
  headers : Option (List String) := none
  credentials : Option Bool := none
  maxAge : Option Nat := none
  deriving Repr, DecidableEq

/-- `LocationBlock.enableCors`: destructure with defaults, then emit the
header directives in the fixed order origin, methods, headers, conditionally
credentials, then max-age. -/
def LocationBlock.enableCors (b : LocationBlock) (opts : CorsOptions) : LocationBlock :=
  let origins := opts.origins.getD ["*"]
  let methods := opts.methods.getD ["GET", "POST", "OPTIONS"]
  let headers := opts.headers.getD ["DNT", "X-CustomHeader", "Keep-Alive", "User-Agent"]
  let credentials := opts.credentials.getD false
  let maxAge := opts.maxAge.getD 1728000
  let b1 := b.addHeader "Access-Control-Allow-Origin" (joinStr " " origins)
  let b2 := b1.addHeader "Access-Control-Allow-Methods" (joinStr " " methods)
  let b3 := b2.addHeader "Access-Control-Allow-Headers" (joinStr " " headers)
  let b4 := if credentials then b3.addHeader "Access-Control-Allow-Credentials" "true" else b3
  b4.addHeader "Access-Control-Max-Age" (toString maxAge)

/-! ## Auxiliary predicates used in the statements -/

/-- A string carrying exactly one terminating semicolon: the last character
is `;` and the character before it is not. -/
def hasExactlyOneTrailingSemi (s : String) : Prop :=
  s.data.getLast? = some ';' ∧ s.data.dropLast.getLast? ≠ some ';'

instance (s : String) : Decidable (hasExactlyOneTrailingSemi s) := by
  unfold hasExactlyOneTrailingSemi; infer_instance

/-- A string containing at least one non-whitespace character (JS
`s.trim()` truthiness holds exactly for such strings). -/
def hasNonWS (s : String) : Prop :=
  ∃ c ∈ s.data, c.isWhitespace = false

instance (s : String) : Decidable (hasNonWS s) := by
  unfold hasNonWS; infer_instance

/-- Text terminated by exactly one trailing newline: the final character is
`\n` and the character before it, if any, is not. -/
def endsWithOneNewline (s : String) : Prop :=
  s.data.getLast? = some '\n' ∧ s.data.dropLast.getLast? ≠ some '\n'

instance (s : String) : Decidable (endsWithOneNewline s) := by
  unfold endsWithOneNewline; infer_instance

/-- Validity of the stored top-level directives of a `NginxConfig`: each
present one ends with a semicolon (every setter of the source establishes
this). -/
def nginxStoredOk (c : NginxConfig) : Bool :=
  (match c.userDirective with
   | some s => jsEndsWithSemi s
   | none => true)
  && (match c.workerProcessesDirective with
      | some s => jsEndsWithSemi s
      | none => true)
  && (match c.pidDirective with
      | some s => jsEndsWithSemi s
      | none => true)

/-- Disjointness of the own-property sets of two typed-option patches. -/
def patchDisjoint (d1 d2 : HttpTypedPatch) : Bool :=
  (d1.sendfile.isNone || d2.sendfile.isNone)
  && (d1.keepalive_timeout.isNone || d2.keepalive_timeout.isNone)
  && (d1.client_max_body_size.isNone || d2.client_max_body_size.isNone)
  && (d1.default_type.isNone || d2.default_type.isNone)
  && (d1.gzip.isNone || d2.gzip.isNone)
  && (d1.gzip_types.isNone || d2.gzip_types.isNone)
  && (d1.tcp_nopush.isNone || d2.tcp_nopush.isNone)
  && (d1.tcp_nodelay.isNone || d2.tcp_nodelay.isNone)

/-- Concrete document used as explicit input for the nesting-depth claim:
one directive inside one location inside one server inside the http
section of a full document. -/
def depthExample : NginxConfig :=
  { userDirective := some "user nginx;",
    httpBlock := some
      { servers := [{ directives := ["listen 80;"],
                      locations := [{ path := "/", exact := false,
                                      directives := ["root /var/www/html;"],
                                      ifBlocks := [] }] }] } }

/-! ## Helper lemmas -/

lemma data_eq_nil_iff (s : String) : s.data = [] ↔ s = "" := by
  constructor
  · intro h
    cases s with
    | mk d => simpa [String.ext_iff] using h
  · intro h
    subst h
    rfl

lemma hasNonWS_append_left {s : String} (t : String) (h : hasNonWS s) :
    hasNonWS (s ++ t) := by
  obtain ⟨c, hc, hw⟩ := h
  exact ⟨c, by simp [String.data_append, hc], hw⟩

lemma hasNonWS_append_right (s : String) {t : String} (h : hasNonWS t) :
    hasNonWS (s ++ t) := by
  obtain ⟨c, hc, hw⟩ := h
  exact ⟨c, by simp [String.data_append, hc], hw⟩

lemma jsTrim_empty : jsTrim "" = "" := rfl

lemma jsTrim_ne_empty {s : String} (h : hasNonWS s) : jsTrim s ≠ "" := by
  obtain ⟨c, hc, hw⟩ := h
  intro heq
  have hdata : ((s.data.dropWhile Char.isWhitespace).reverse.dropWhile
      Char.isWhitespace).reverse = [] := by
    have := congrArg String.data heq
    simpa [jsTrim] using this
  rw [List.reverse_eq_nil_iff, List.dropWhile_eq_nil_iff] at hdata
  have hall : ∀ x ∈ s.data, x.isWhitespace = true := by
    intro x hx
    rw [← List.takeWhile_append_dropWhile Char.isWhitespace s.data] at hx
    rcases List.mem_append.mp hx with h1 | h2
    · exact List.mem_takeWhile_imp h1
    · exact hdata x (List.mem_reverse.mpr h2)
  rw [hall c hc] at hw
  cases hw

lemma mem_of_getLast?_eq {α : Type} {l : List α} {a : α}
    (h : l.getLast? = some a) : a ∈ l := by
  induction l with
  | nil => cases h
  | cons x xs ih =>
    cases xs with
    | nil =>
      simp [List.getLast?] at h
      simp [h]
    | cons y ys =>
      rw [List.getLast?_cons_cons] at h
      exact List.mem_cons_of_mem x (ih h)

lemma hasNonWS_of_getLast?_semi {s : String}
    (h : s.data.getLast? = some ';') : hasNonWS s :=
  ⟨';', mem_of_getLast?_eq h, by decide⟩

lemma hasNonWS_of_getLast?_brace {s : String}
    (h : s.data.getLast? = some '\x7d') : hasNonWS s :=
  ⟨'\x7d', mem_of_getLast?_eq h, by decide⟩

lemma str_getLast?_append (s t : String) (h : t.data ≠ []) :
    (s ++ t).data.getLast? = t.data.getLast? := by
  rw [String.data_append]
  exact List.getLast?_append_of_ne_nil s.data h

lemma str_head?_append {s : String} (t : String) {c : Char}
    (h : s.data.head? = some c) : (s ++ t).data.head? = some c := by
  rw [String.data_append]
  have hne : s.data ≠ [] := by
    intro hnil
    rw [hnil] at h
    cases h
  rw [List.head?_append_of_ne_nil s.data hne]
  exact h

lemma ne_of_head?_ne {s t : String} (h : s.data.head? ≠ t.data.head?) :
    s ≠ t := by
  intro heq
  exact h (by rw [heq])

lemma joinStr_hasNonWS (sep : String) (x : String) (xs : List String)
    (h : hasNonWS x) : hasNonWS (joinStr sep (x :: xs)) := by
  cases xs with
  | nil => simpa [joinStr] using h
  | cons y ys =>
    rw [joinStr]
    exact hasNonWS_append_left _ (hasNonWS_append_left _ h)

lemma joinStr_last_prop (sep : String) (P : Option Char → Prop) :
    ∀ xs : List String, xs ≠ [] →
      (∀ x ∈ xs, x.data ≠ [] ∧ P x.data.getLast?) →
      (joinStr sep xs).data ≠ [] ∧ P (joinStr sep xs).data.getLast? := by
  intro xs
  induction xs with
  | nil => intro h; cases h rfl
  | cons x xs ih =>
    intro _ h
    cases xs with
    | nil =>
      simpa [joinStr] using h x (by simp)
    | cons y ys =>
      have htail : ∀ z ∈ y :: ys, z.data ≠ [] ∧ P z.data.getLast? := by
        intro z hz
        exact h z (List.mem_cons_of_mem x hz)
      obtain ⟨hne, hP⟩ := ih (by simp) htail
      rw [joinStr]
      constructor
      · rw [String.data_append]
        intro hnil
        exact hne (List.append_eq_nil.mp hnil).2
      · rw [str_getLast?_append _ _ hne]
        exact hP

/-- Concrete document family for the nesting-depth claim: one directive `d`
inside a location inside a server inside the http section of a full document. -/
def depthFamily (d : String) : NginxConfig :=
  { httpBlock := some
      { servers := [{ directives := ["listen 80;"],
                      locations := [{ path := "/", exact := false,
                                      directives := [d], ifBlocks := [] }] }] } }

end NginxCfg

/-! # Theorems -/

namespace NginxCfg

/-- C2: the append operation stores exactly one directive line; a directive
not ending in `;` is stored with `;` appended.  But the headline "exactly one
terminating `;`" fails: appending `"a;;"` , which already ends with the
separator, stores the line unchanged with its two trailing semicolons. -/
theorem addDirective_double_semi_counterexample :
    ((Block.mk []).addDirective "a;;").directives = ["a;;"]
    ∧ ¬ hasExactlyOneTrailingSemi "a;;" := by
  constructor
  · rfl
  · decide

/-- C2 (amended): `addDirective` appends exactly one stored line, the
normalization of the input; the stored line always ends with a semicolon; if
the input did not end with `;` the stored line is the input plus a single
`;` and then carries exactly one trailing separator; if the input already
ended with `;` it is stored unchanged (no separator added, but pre-existing
repeated separators are preserved). -/
theorem addDirective_normalization (s : String) (b : Block) :
    (b.addDirective s).directives = b.directives ++ [normalizeDirective s]
    ∧ jsEndsWithSemi (normalizeDirective s) = true
    ∧ (jsEndsWithSemi s = false → normalizeDirective s = s ++ ";"
        ∧ hasExactlyOneTrailingSemi (normalizeDirective s))
    ∧ (jsEndsWithSemi s = true → normalizeDirective s = s) := by
  have hdata : (s ++ ";").data = s.data ++ [';'] := by
    rw [String.data_append]
  refine ⟨rfl, ?_, ?_, ?_⟩
  · unfold normalizeDirective
    split
    · assumption
    · unfold jsEndsWithSemi
      rw [hdata, List.getLast?_concat]
      rfl
  · intro h
    have hn : normalizeDirective s = s ++ ";" := by
      unfold normalizeDirective
      simp [h]
    refine ⟨hn, ?_, ?_⟩
    · rw [hn, hdata, List.getLast?_concat]
    · rw [hn, hdata, List.dropLast_concat]
      unfold jsEndsWithSemi at h
      intro hc
      rw [hc] at h
      simp at h
  · intro h
    unfold normalizeDirective
    simp [h]

/-- C2 witness: a concrete application of the amended statement. -/
theorem addDirective_normalization_witness :
    ((Block.mk []).addDirective "worker_connections 1024").directives
      = ["worker_connections 1024;"]
    ∧ hasExactlyOneTrailingSemi "worker_connections 1024;" := by
  have h := addDirective_normalization "worker_connections 1024" (Block.mk [])
  have hds : jsEndsWithSemi "worker_connections 1024" = false := by decide
  obtain ⟨h1, _, h3, _⟩ := h
  obtain ⟨hn, hone⟩ := h3 hds
  have hlit : normalizeDirective "worker_connections 1024"
      = "worker_connections 1024;" := by
    rw [hn]
    decide
  exact ⟨by rw [h1, hlit]; rfl, hlit ▸ hone⟩

/-- C4: the empty-body rule fails for most block kinds.  An events block with
no directives renders as `events {` newline newline `}` , not as the claimed
minimal form `events {}`. -/
theorem empty_events_not_minimal :
    EventsBlock.build { directives := [] } = "events \x7b\n\n\x7d"
    ∧ EventsBlock.build { directives := [] } ≠ "events \x7b\x7d" := by
  exact ⟨rfl, by decide⟩

/-- C4 (amended): only the http block renders the minimal empty form
`http {}` ; every other kind (events, server, location, upstream, map)
renders its opening delimiter, an empty body line and the closing delimiter. -/
theorem empty_body_forms :
    EventsBlock.build { directives := [] } = "events \x7b\n\n\x7d"
    ∧ HttpBlock.build {} "" = "http \x7b\x7d"
    ∧ ServerBlock.build {} "" = "server \x7b\n\n\x7d"
    ∧ LocationBlock.build { path := "/" } "" = "location  / \x7b\n\n\x7d"
    ∧ UpstreamBlock.build { name := "backend" } "" = "upstream backend \x7b\n\n\x7d"
    ∧ MapBlock.build { srcVariable := "$http_host", outputVar := "$target" } "    "
        = "    map $http_host $target \x7b\n\n    \x7d" := by
  exact ⟨rfl, rfl, rfl, rfl, rfl, rfl⟩

/-- C6: calling the CORS helper with default options renders exactly FOUR
header directives (origin, methods, headers, max-age), not five as claimed:
the credentials line is omitted because the default is `false` and no other
line exists. -/
theorem enableCors_default_four_directives :
    ((LocationBlock.mk "/" false [] []).enableCors {}).directives
      = ["add_header Access-Control-Allow-Origin *;",
         "add_header Access-Control-Allow-Methods GET POST OPTIONS;",
         "add_header Access-Control-Allow-Headers DNT X-CustomHeader Keep-Alive User-Agent;",
         "add_header Access-Control-Max-Age 1728000;"]
    ∧ ((LocationBlock.mk "/" false [] []).enableCors {}).directives.length ≠ 5 := by
  exact ⟨rfl, by decide⟩

/-- C6 (amended): for every options record the CORS helper appends exactly
the header-setting directives allow-origin, allow-methods, allow-headers,
conditionally allow-credentials, then max-age, in this fixed order; with all
defaults this is four directives (credentials omitted). -/
theorem enableCors_fixed_order (b : LocationBlock) (opts : CorsOptions) :
    (b.enableCors opts).directives
      = b.directives
        ++ [normalizeDirective ("add_header Access-Control-Allow-Origin "
              ++ joinStr " " (opts.origins.getD ["*"])),
            normalizeDirective ("add_header Access-Control-Allow-Methods "
              ++ joinStr " " (opts.methods.getD ["GET", "POST", "OPTIONS"])),
            normalizeDirective ("add_header Access-Control-Allow-Headers "
              ++ joinStr " " (opts.headers.getD
                  ["DNT", "X-CustomHeader", "Keep-Alive", "User-Agent"]))]
        ++ (if opts.credentials.getD false
            then [normalizeDirective "add_header Access-Control-Allow-Credentials true"]
            else [])
        ++ [normalizeDirective ("add_header Access-Control-Max-Age "
              ++ toString (opts.maxAge.getD 1728000))] := by
  unfold LocationBlock.enableCors LocationBlock.addHeader LocationBlock.addDirective
    NginxCfg.addDirective
  cases h : opts.credentials.getD false <;> simp [h, List.append_assoc]

lemma server_line_eq (x lit suffix : String)
    (h1 : lit.data ≠ [])
    (h2 : jsEndsWithSemi lit = false)
    (h3 : (" " ++ lit ++ ";" : String) = suffix) :
    normalizeDirective ("server " ++ joinStr " " [x, lit])
      = "server " ++ (x ++ suffix) := by
  have hj : ("server " ++ joinStr " " [x, lit]) = "server " ++ ((x ++ " ") ++ lit) := rfl
  have hdata : ((x ++ " ") ++ lit).data ≠ [] := by
    rw [String.data_append]
    intro h
    exact h1 (List.append_eq_nil.mp h).2
  have hlast : ("server " ++ ((x ++ " ") ++ lit)).data.getLast? = lit.data.getLast? := by
    rw [str_getLast?_append _ _ hdata, str_getLast?_append _ _ h1]
  have hend : jsEndsWithSemi ("server " ++ joinStr " " [x, lit]) = false := by
    rw [hj]
    unfold jsEndsWithSemi
    rw [hlast]
    unfold jsEndsWithSemi at h2
    exact h2
  unfold normalizeDirective
  rw [hend]
  show ("server " ++ joinStr " " [x, lit]) ++ ";" = "server " ++ (x ++ suffix)
  rw [← h3, hj]
  apply String.ext
  simp [String.data_append, List.append_assoc]

/-- C7: each pool-member addition appends exactly one `server` directive
consisting of the address followed by the conditionally-present modifiers in
the fixed order weight, max_fails, fail_timeout, backup, down; repeated
additions therefore appear in call order, as the concrete three-member
scenario shows. -/
theorem upstream_server_fixed_modifier_order (u : UpstreamBlock) (address : String)
    (o : ServerOptions) (a b c : String) :
    ((u.server address o).directives
      = u.directives
        ++ [normalizeDirective ("server " ++ joinStr " "
            ([address]
             ++ (match o.weight with
                 | some w => ["weight=" ++ toString w]
                 | none => [])
             ++ (match o.maxFails with
                 | some m => ["max_fails=" ++ toString m]
                 | none => [])
             ++ (match o.failTimeout with
                 | some f => if f != "" then ["fail_timeout=" ++ f] else []
                 | none => [])
             ++ (if o.backup.getD false then ["backup"] else [])
             ++ (if o.down.getD false then ["down"] else [])))])
    ∧ (((u.server a { weight := some 3 }).server b { backup := some true }).server c
          { down := some true }).directives
        = u.directives
          ++ ["server " ++ (a ++ " weight=3;"),
              "server " ++ (b ++ " backup;"),
              "server " ++ (c ++ " down;")] := by
  constructor
  · rfl
  · have e1 := server_line_eq a "weight=3" " weight=3;" (by decide) (by decide) (by decide)
    have e2 := server_line_eq b "backup" " backup;" (by decide) (by decide) (by decide)
    have e3 := server_line_eq c "down" " down;" (by decide) (by decide) (by decide)
    simp only [UpstreamBlock.server, UpstreamBlock.addDirective, NginxCfg.addDirective,
      Option.getD, List.append_nil, List.nil_append, List.cons_append,
      List.singleton_append]
    rw [show ("weight=" ++ toString 3 : String) = "weight=3" from by decide]
    simp only [Bool.false_eq_true, if_false, if_true, ite_true, ite_false,
      List.append_nil, List.nil_append]
    rw [e1, e2, e3]
    simp [List.append_assoc]

/-- C9: a typed option merged with an empty value is rendered as absent: with
`client_max_body_size` merged as the empty string, or `gzip_types` merged as
the empty list, the key is present in the option set but the rendered lines
equal those of the state with the key absent. -/
theorem typed_empty_value_renders_absent (t : HttpTypedDirectives) :
    ((applyTypedDirectives t { client_max_body_size := some (some "") }).client_max_body_size
        = some ""
      ∧ buildTypedDirectives (applyTypedDirectives t { client_max_body_size := some (some "") })
        = buildTypedDirectives
            { applyTypedDirectives t { client_max_body_size := some (some "") } with
              client_max_body_size := none })
    ∧ ((applyTypedDirectives t { gzip_types := some (some []) }).gzip_types = some []
      ∧ buildTypedDirectives (applyTypedDirectives t { gzip_types := some (some []) })
        = buildTypedDirectives
            { applyTypedDirectives t { gzip_types := some (some []) } with
              gzip_types := none }) := by
  refine ⟨⟨rfl, ?_⟩, rfl, ?_⟩ <;> simp [applyTypedDirectives, buildTypedDirectives]

lemma head2_ne_s (lit x y : String) (c : Char) (hc : lit.data.head? = some c)
    (hcs : c ≠ 's') : ((lit ++ x) ++ y).data.head? ≠ some 's' := by
  rw [str_head?_append y (str_head?_append x hc)]
  intro h
  exact hcs (Option.some.inj h)

lemma buildTyped_no_s_line (t : HttpTypedDirectives) (hs : t.sendfile = none) :
    ∀ l ∈ buildTypedDirectives t, l.data.head? ≠ some 's' := by
  intro l hl
  unfold buildTypedDirectives at hl
  rw [hs] at hl
  simp only [List.mem_append, or_assoc] at hl
  rcases hl with h | h | h | h | h | h | h | h
  · simp at h
  · cases ho : t.keepalive_timeout with
    | none => rw [ho] at h; simp at h
    | some n =>
      rw [ho] at h
      simp at h
      subst h
      exact head2_ne_s _ _ _ 'k' (by decide) (by decide)
  · cases ho : t.client_max_body_size with
    | none => rw [ho] at h; simp at h
    | some v =>
      rw [ho] at h
      simp at h
      obtain ⟨-, h⟩ := h
      subst h
      exact head2_ne_s _ _ _ 'c' (by decide) (by decide)
  · cases ho : t.default_type with
    | none => rw [ho] at h; simp at h
    | some v =>
      rw [ho] at h
      simp at h
      obtain ⟨-, h⟩ := h
      subst h
      exact head2_ne_s _ _ _ 'd' (by decide) (by decide)
  · cases ho : t.gzip with
    | none => rw [ho] at h; simp at h
    | some v =>
      rw [ho] at h
      simp at h
      subst h
      exact head2_ne_s _ _ _ 'g' (by decide) (by decide)
  · cases ho : t.gzip_types with
    | none => rw [ho] at h; simp at h
    | some v =>
      rw [ho] at h
      simp at h
      obtain ⟨-, h⟩ := h
      subst h
      exact head2_ne_s _ _ _ 'g' (by decide) (by decide)
  · cases ho : t.tcp_nopush with
    | none => rw [ho] at h; simp at h
    | some v =>
      rw [ho] at h
      simp at h
      subst h
      exact head2_ne_s _ _ _ 't' (by decide) (by decide)
  · cases ho : t.tcp_nodelay with
    | none => rw [ho] at h; simp at h
    | some v =>
      rw [ho] at h
      simp at h
      subst h
      exact head2_ne_s _ _ _ 't' (by decide) (by decide)

/-- C10: merging a patch that explicitly maps `sendfile` to the undefined
value clears a previously merged `sendfile true`: the resulting option set
holds no sendfile value and the rendered lines contain no sendfile line. -/
theorem typed_undefined_overwrite_clears (t : HttpTypedDirectives) :
    (applyTypedDirectives (applyTypedDirectives t { sendfile := some (some true) })
        { sendfile := some none }).sendfile = none
    ∧ ∀ b : Bool,
        ("sendfile " ++ (if b then "on" else "off") ++ ";")
          ∉ buildTypedDirectives
              (applyTypedDirectives (applyTypedDirectives t { sendfile := some (some true) })
                { sendfile := some none }) := by
  constructor
  · rfl
  · intro b hmem
    exact buildTyped_no_s_line _ rfl _ hmem
      (str_head?_append _ (str_head?_append _ (by decide)))

lemma getD_getD_comm {α : Type} (f g : Option α) (x : α)
    (h : f = none ∨ g = none) :
    g.getD (f.getD x) = f.getD (g.getD x) := by
  rcases h with h | h
  · subst h
    cases g <;> simp
  · subst h
    cases f <;> simp

/-- C3: merging two typed-option patches with disjoint key sets in either
order yields byte-identical rendered typed-option lines, because the final
option set is the same and rendering follows the fixed schema order. -/
theorem typed_merge_order_independent (t : HttpTypedDirectives)
    (d1 d2 : HttpTypedPatch) (h : patchDisjoint d1 d2 = true) :
    buildTypedDirectives (applyTypedDirectives (applyTypedDirectives t d1) d2)
      = buildTypedDirectives (applyTypedDirectives (applyTypedDirectives t d2) d1) := by
  have hstate : applyTypedDirectives (applyTypedDirectives t d1) d2
      = applyTypedDirectives (applyTypedDirectives t d2) d1 := by
    unfold patchDisjoint at h
    simp only [Bool.and_eq_true, Bool.or_eq_true, Option.isNone_iff_eq_none] at h
    obtain ⟨⟨⟨⟨⟨⟨⟨h1, h2⟩, h3⟩, h4⟩, h5⟩, h6⟩, h7⟩, h8⟩ := h
    simp only [applyTypedDirectives, HttpTypedDirectives.mk.injEq]
    exact ⟨getD_getD_comm _ _ _ h1, getD_getD_comm _ _ _ h2, getD_getD_comm _ _ _ h3,
      getD_getD_comm _ _ _ h4, getD_getD_comm _ _ _ h5, getD_getD_comm _ _ _ h6,
      getD_getD_comm _ _ _ h7, getD_getD_comm _ _ _ h8⟩
  rw [hstate]

/-- C3 witness: the spec scenario, merging `{sendfile, keepalive_timeout}`
then `{gzip}` versus the reverse call order. -/
theorem typed_merge_order_independent_witness :
    buildTypedDirectives (applyTypedDirectives (applyTypedDirectives {}
        { sendfile := some (some true), keepalive_timeout := some (some 65) })
        { gzip := some (some true) })
      = buildTypedDirectives (applyTypedDirectives (applyTypedDirectives {}
        { gzip := some (some true) })
        { sendfile := some (some true), keepalive_timeout := some (some 65) }) :=
  typed_merge_order_independent {} _ _ (by decide)

lemma getLast?_some_ne_nil {α : Type} {l : List α} {a : α}
    (h : l.getLast? = some a) : l ≠ [] := by
  intro hn
  rw [hn] at h
  simp at h

lemma semi_of_jsEnds {s : String} (h : jsEndsWithSemi s = true) :
    s.data ≠ [] ∧ s.data.getLast? = some ';' := by
  unfold jsEndsWithSemi at h
  cases hl : s.data.getLast? with
  | none => rw [hl] at h; cases h
  | some ch =>
    rw [hl] at h
    have hc : ch = ';' := by simpa using h
    exact ⟨getLast?_some_ne_nil hl, by rw [hc]⟩

lemma concat_semi_last (s : String) : (s ++ ";").data.getLast? = some ';' := by
  rw [String.data_append]
  exact List.getLast?_concat _

lemma eventsBuild_last (b : EventsBlock) :
    (b.build).data.getLast? = some '\x7d' := by
  unfold EventsBlock.build
  rw [str_getLast?_append _ "\n\x7d" (by decide)]
  decide

lemma serverBuild_last (b : ServerBlock) (ind : String) :
    (b.build ind).data.getLast? = some '\x7d' := by
  unfold ServerBlock.build
  rw [str_getLast?_append _ "\x7d" (by decide)]
  decide

lemma upstreamBuild_last (b : UpstreamBlock) (ind : String) :
    (b.build ind).data.getLast? = some '\x7d' := by
  unfold UpstreamBlock.build
  rw [str_getLast?_append _ "\x7d" (by decide)]
  decide

lemma mapBuild_last (b : MapBlock) (ind : String) :
    (b.build ind).data.getLast? = some '\x7d' := by
  unfold MapBlock.build
  rw [str_getLast?_append _ "\x7d" (by decide)]
  decide

lemma httpBuild_last (b : HttpBlock) (ind : String) :
    (b.build ind).data.getLast? = some '\x7d' := by
  simp only [HttpBlock.build]
  split
  · rw [str_getLast?_append _ "\x7d" (by decide)]
    decide
  · rw [str_getLast?_append _ "http \x7b\x7d" (by decide)]
    decide

/-- Property of a rendered part: nonempty character data ending in `;` or in
the closing delimiter, hence in particular not ending in a newline. -/
def partEndsOk (p : String) : Prop :=
  p.data ≠ [] ∧ (p.data.getLast? = some ';' ∨ p.data.getLast? = some '\x7d')

lemma nginx_parts_ok (c : NginxConfig) (h : nginxStoredOk c = true) :
    ∀ p ∈ c.buildParts, partEndsOk p := by
  unfold nginxStoredOk at h
  simp only [Bool.and_eq_true] at h
  obtain ⟨⟨hu, hw⟩, hp⟩ := h
  intro p hp'
  unfold NginxConfig.buildParts at hp'
  simp only [List.mem_append, or_assoc] at hp'
  have stored : ∀ (o : Option String),
      (match o with | some s => jsEndsWithSemi s | none => true) = true →
      p ∈ (match o with | some s => if s != "" then [s] else [] | none => []) →
      partEndsOk p := by
    intro o ho hmem
    cases o with
    | none => simp at hmem
    | some s =>
      simp only at ho hmem
      split at hmem
      · simp only [List.mem_singleton] at hmem
        subst hmem
        obtain ⟨h1, h2⟩ := semi_of_jsEnds ho
        exact ⟨h1, Or.inl h2⟩
      · simp at hmem
  rcases hp' with h' | h' | h' | h' | h'
  · exact stored _ hu h'
  · exact stored _ hw h'
  · exact stored _ hp h'
  · cases he : c.eventsBlock with
    | none => rw [he] at h'; simp at h'
    | some e =>
      rw [he] at h'
      simp only [List.mem_singleton] at h'
      rw [h']
      exact ⟨getLast?_some_ne_nil (eventsBuild_last e), Or.inr (eventsBuild_last e)⟩
  · cases hh : c.httpBlock with
    | none => rw [hh] at h'; simp at h'
    | some hb =>
      rw [hh] at h'
      simp only [List.mem_singleton] at h'
      rw [h']
      exact ⟨getLast?_some_ne_nil (httpBuild_last hb ""), Or.inr (httpBuild_last hb "")⟩

lemma site_parts_ok (c : SiteConfig) : ∀ p ∈ c.buildParts, partEndsOk p := by
  intro p hp
  unfold SiteConfig.buildParts at hp
  rw [List.mem_filter] at hp
  obtain ⟨hmem, hne⟩ := hp
  have hne' : p ≠ "" := by simpa using hne
  simp only [List.mem_cons, List.mem_singleton, List.not_mem_nil, or_false] at hmem
  rcases hmem with h' | h'
  · subst h'
    cases hd : c.directives with
    | nil =>
      rw [hd] at hne'
      exact absurd rfl hne'
    | cons d ds =>
      refine (joinStr_last_prop "\n" (fun o => o = some ';' ∨ o = some '\x7d') _
        (by simp) ?_).imp id id
      intro x hx
      simp only [List.mem_map] at hx
      obtain ⟨d', _, hx⟩ := hx
      subst hx
      constructor
      · split
        · exact (semi_of_jsEnds (by assumption)).1
        · exact getLast?_some_ne_nil (concat_semi_last d')
      · left
        split
        · exact (semi_of_jsEnds (by assumption)).2
        · exact concat_semi_last d'
  · subst h'
    cases hs : c.servers with
    | nil =>
      rw [hs] at hne'
      exact absurd rfl hne'
    | cons s ss =>
      refine (joinStr_last_prop "\n" (fun o => o = some ';' ∨ o = some '\x7d') _
        (by simp) ?_).imp id id
      intro x hx
      simp only [List.mem_map] at hx
      obtain ⟨s', _, hx⟩ := hx
      subst hx
      exact ⟨getLast?_some_ne_nil (serverBuild_last s' ""),
        Or.inr (serverBuild_last s' "")⟩

lemma joinStr_newline_ok (sep : String) (parts : List String)
    (h : ∀ p ∈ parts, partEndsOk p) :
    endsWithOneNewline (joinStr sep parts ++ "\n") := by
  constructor
  · rw [String.data_append, show ("\n" : String).data = ['\n'] from rfl,
      List.getLast?_concat]
  · rw [String.data_append, show ("\n" : String).data = ['\n'] from rfl,
      List.dropLast_concat]
    cases parts with
    | nil =>
      show (joinStr sep []).data.getLast? ≠ some '\n'
      simp [joinStr]
    | cons x xs =>
      have hj := joinStr_last_prop sep (fun o => o = some ';' ∨ o = some '\x7d')
        (x :: xs) (by simp) (by
          intro z hz
          exact ⟨(h z hz).1, (h z hz).2⟩)
      rcases hj.2 with h' | h' <;> rw [h'] <;> decide

/-- C8: both document root variants, for every tree state (hypotheses only
on the stored top-level directives of the full root, which every setter
establishes), produce text terminated by exactly one trailing newline —
including the empty documents. -/
theorem build_ends_with_one_newline (site : SiteConfig) (cfg : NginxConfig)
    (h : nginxStoredOk cfg = true) :
    endsWithOneNewline site.build ∧ endsWithOneNewline cfg.build := by
  constructor
  · show endsWithOneNewline (joinStr "\n" site.buildParts ++ "\n")
    exact joinStr_newline_ok _ _ (site_parts_ok site)
  · show endsWithOneNewline (joinStr "\n\n" cfg.buildParts ++ "\n")
    exact joinStr_newline_ok _ _ (nginx_parts_ok cfg h)

/-- C8 witness: the empty documents of both root variants. -/
theorem build_ends_with_one_newline_witness :
    endsWithOneNewline (SiteConfig.build {}) ∧ endsWithOneNewline (NginxConfig.build {}) :=
  build_ends_with_one_newline {} {} (by decide)

lemma buildTyped_lines_nonws (t : HttpTypedDirectives) :
    ∀ l ∈ buildTypedDirectives t, hasNonWS l := by
  intro l hl
  unfold buildTypedDirectives at hl
  simp only [List.mem_append, or_assoc] at hl
  rcases hl with h | h | h | h | h | h | h | h
  · cases ho : t.sendfile with
    | none => rw [ho] at h; simp at h
    | some v =>
      rw [ho] at h
      simp at h
      subst h
      exact hasNonWS_append_left _ (hasNonWS_append_left _ (by decide))
  · cases ho : t.keepalive_timeout with
    | none => rw [ho] at h; simp at h
    | some n =>
      rw [ho] at h
      simp at h
      subst h
      exact hasNonWS_append_left _ (hasNonWS_append_left _ (by decide))
  · cases ho : t.client_max_body_size with
    | none => rw [ho] at h; simp at h
    | some v =>
      rw [ho] at h
      simp at h
      obtain ⟨-, h⟩ := h
      subst h
      exact hasNonWS_append_left _ (hasNonWS_append_left _ (by decide))
  · cases ho : t.default_type with
    | none => rw [ho] at h; simp at h
    | some v =>
      rw [ho] at h
      simp at h
      obtain ⟨-, h⟩ := h
      subst h
      exact hasNonWS_append_left _ (hasNonWS_append_left _ (by decide))
  · cases ho : t.gzip with
    | none => rw [ho] at h; simp at h
    | some v =>
      rw [ho] at h
      simp at h
      subst h
      exact hasNonWS_append_left _ (hasNonWS_append_left _ (by decide))
  · cases ho : t.gzip_types with
    | none => rw [ho] at h; simp at h
    | some v =>
      rw [ho] at h
      simp at h
      obtain ⟨-, h⟩ := h
      subst h
      exact hasNonWS_append_left _ (hasNonWS_append_left _ (by decide))
  · cases ho : t.tcp_nopush with
    | none => rw [ho] at h; simp at h
    | some v =>
      rw [ho] at h
      simp at h
      subst h
      exact hasNonWS_append_left _ (hasNonWS_append_left _ (by decide))
  · cases ho : t.tcp_nodelay with
    | none => rw [ho] at h; simp at h
    | some v =>
      rw [ho] at h
      simp at h
      subst h
      exact hasNonWS_append_left _ (hasNonWS_append_left _ (by decide))

lemma http_groups_nonws (ind : String) (b : HttpBlock)
    (h : ∀ d ∈ b.directives, jsEndsWithSemi d = true) :
    ∀ g ∈ b.groups ind, g ≠ "" → hasNonWS g := by
  intro g hg hne
  unfold HttpBlock.groups at hg
  simp only [List.mem_cons, List.not_mem_nil, or_false] at hg
  rcases hg with h' | h' | h' | h' | h'
  · subst h'
    cases ht : buildTypedDirectives b.typedDirectives with
    | nil =>
      rw [ht] at hne
      exact absurd rfl hne
    | cons l ls =>
      rw [List.map_cons]
      exact joinStr_hasNonWS _ _ _ (hasNonWS_append_right _
        (buildTyped_lines_nonws _ l (by rw [ht]; exact List.mem_cons_self _ _)))
  · subst h'
    cases hd : b.directives with
    | nil =>
      rw [hd] at hne
      exact absurd rfl hne
    | cons d ds =>
      rw [List.map_cons]
      have hsemi := h d (by rw [hd]; exact List.mem_cons_self _ _)
      exact joinStr_hasNonWS _ _ _ (hasNonWS_append_right _
        (hasNonWS_of_getLast?_semi (semi_of_jsEnds hsemi).2))
  · subst h'
    cases hu : b.upstreams with
    | nil =>
      rw [hu] at hne
      exact absurd rfl hne
    | cons u us =>
      rw [List.map_cons]
      exact joinStr_hasNonWS _ _ _ (hasNonWS_of_getLast?_brace (upstreamBuild_last u _))
  · subst h'
    cases hm : b.maps with
    | nil =>
      rw [hm] at hne
      exact absurd rfl hne
    | cons m ms =>
      rw [List.map_cons]
      exact joinStr_hasNonWS _ _ _ (hasNonWS_of_getLast?_brace (mapBuild_last m _))
  · subst h'
    cases hs : b.servers with
    | nil =>
      rw [hs] at hne
      exact absurd rfl hne
    | cons s ss =>
      rw [List.map_cons]
      exact joinStr_hasNonWS _ _ _ (hasNonWS_of_getLast?_brace (serverBuild_last s _))

/-- C1: the http block renders its content groups in the fixed order typed
options, free-form directives, upstream collection, map collection, server
collection, each collection rendering its members in insertion order joined
by one blank line; the non-empty groups are joined by exactly one blank
line, empty groups contribute nothing, and the all-empty body degenerates to
the minimal form.  (The hypothesis — every stored directive ends with a
semicolon — is the invariant `addDirective` establishes.) -/
theorem http_build_group_order (ind : String) (b : HttpBlock)
    (h : ∀ d ∈ b.directives, jsEndsWithSemi d = true) :
    b.build ind =
      if ([joinStr "\n" ((buildTypedDirectives b.typedDirectives).map
              (fun d => ind ++ "    " ++ d)),
            joinStr "\n" (b.directives.map (fun d => ind ++ "    " ++ d)),
            joinStr "\n\n" (b.upstreams.map (fun u => u.build (ind ++ "    "))),
            joinStr "\n\n" (b.maps.map (fun m => m.build (ind ++ "    "))),
            joinStr "\n\n" (b.servers.map (fun s => s.build (ind ++ "    ")))].filter
            (fun p => p != "")).isEmpty
      then ind ++ "http \x7b\x7d"
      else ind ++ "http \x7b\n"
           ++ joinStr "\n\n"
               ([joinStr "\n" ((buildTypedDirectives b.typedDirectives).map
                   (fun d => ind ++ "    " ++ d)),
                 joinStr "\n" (b.directives.map (fun d => ind ++ "    " ++ d)),
                 joinStr "\n\n" (b.upstreams.map (fun u => u.build (ind ++ "    "))),
                 joinStr "\n\n" (b.maps.map (fun m => m.build (ind ++ "    "))),
                 joinStr "\n\n" (b.servers.map (fun s => s.build (ind ++ "    ")))].filter
                 (fun p => p != ""))
           ++ "\n" ++ ind ++ "\x7d" := by
  show HttpBlock.build b ind =
    if ((b.groups (ind ++ "    ")).filter (fun p => p != "")).isEmpty
    then ind ++ "http \x7b\x7d"
    else ind ++ "http \x7b\n"
      ++ joinStr "\n\n" ((b.groups (ind ++ "    ")).filter (fun p => p != ""))
      ++ "\n" ++ ind ++ "\x7d"
  have hgroups := http_groups_nonws (ind ++ "    ") b h
  have hfilter : (b.groups (ind ++ "    ")).filter (fun p => jsTrim p != "")
      = (b.groups (ind ++ "    ")).filter (fun p => p != "") := by
    apply List.filter_congr
    intro g hg
    by_cases he : g = ""
    · subst he
      rfl
    · have h1 : (jsTrim g != "") = true := bne_iff_ne.mpr
        (jsTrim_ne_empty (hgroups g hg he))
      have h2 : (g != "") = true := bne_iff_ne.mpr he
      rw [h1, h2]
  simp only [HttpBlock.build]
  rw [hfilter]
  cases hfe : (b.groups (ind ++ "    ")).filter (fun p => p != "") with
  | nil => rfl
  | cons g gs =>
    have hgmem : g ∈ (b.groups (ind ++ "    ")).filter (fun p => p != "") := by
      rw [hfe]
      exact List.mem_cons_self _ _
    rw [List.mem_filter] at hgmem
    obtain ⟨hmem, hbool⟩ := hgmem
    have hgne : g ≠ "" := by simpa using hbool
    have hNW : hasNonWS (joinStr "\n\n" (g :: gs)) :=
      joinStr_hasNonWS _ _ _ (hgroups g hmem hgne)
    have hcond : (jsTrim (joinStr "\n\n" (g :: gs)) != "") = true :=
      bne_iff_ne.mpr (jsTrim_ne_empty hNW)
    rw [hcond]
    simp

/-- C1 witness: a concrete http block with one free-form directive. -/
theorem http_build_group_order_witness :
    HttpBlock.build { directives := ["include mime.types;"] } ""
      = "http \x7b\n    include mime.types;\n\x7d" := by
  have h := http_build_group_order "" { directives := ["include mime.types;"] }
    (by decide)
  rw [h]
  decide

set_option maxRecDepth 4000 in
/-- C5: a directive inside a location inside a server inside an http section
inside a document is indented by THREE 4-space units (12 spaces), not four:
in the concrete document the directive line carries 12 leading spaces and no
16-space-indented copy of it occurs anywhere in the output. -/
theorem nesting_depth_counterexample :
    NginxConfig.build depthExample
      = "user nginx;\n\nhttp \x7b\n    server \x7b\n        listen 80;\n\n        location  / \x7b\n            root /var/www/html;\n        \x7d\n    \x7d\n\x7d\n"
    ∧ ("\n            root /var/www/html;").data <:+: (NginxConfig.build depthExample).data
    ∧ ¬ (("                root /var/www/html;").data <:+: (NginxConfig.build depthExample).data) := by
  refine ⟨rfl, ?_, ?_⟩ <;> decide

end NginxCfg
namespace NginxCfg

lemma joinStr_single (sep x : String) : joinStr sep [x] = x := rfl

lemma str_empty_data : ("" : String).data = [] := rfl

lemma str_append_ne_empty_right (s t : String) (h : t.data ≠ []) : s ++ t ≠ "" := by
  intro he
  have hd := congrArg String.data he
  rw [String.data_append, str_empty_data] at hd
  exact h (List.append_eq_nil.mp hd).2

lemma ite_bne_true {s : String} (a b : String) (h : s ≠ "") :
    (if s != "" then a else b) = a :=
  if_pos (bne_iff_ne.mpr h)

lemma filter_groups_single (g1 g2 g3 g4 g5 : String)
    (h1 : (jsTrim g1 != "") = false) (h2 : (jsTrim g2 != "") = false)
    (h3 : (jsTrim g3 != "") = false) (h4 : (jsTrim g4 != "") = false)
    (h5 : (jsTrim g5 != "") = true) :
    List.filter (fun p => jsTrim p != "") [g1, g2, g3, g4, g5] = [g5] := by
  simp [List.filter_cons, h1, h2, h3, h4, h5]

/-- C5 (amended): indentation scales linearly at one fixed 4-space unit per
enclosing block, but the document root contributes none, so a directive
inside a location inside a server inside the http section of a full document
is indented by THREE units (12 spaces): for every directive text the
rendered document places exactly 12 spaces before it. -/
theorem nesting_depth_three_units (d : String) :
    NginxConfig.build (depthFamily d)
      = "http \x7b\n    server \x7b\n        listen 80;\n\n        location  / \x7b\n            "
        ++ (d ++ "\n        \x7d\n    \x7d\n\x7d\n") := by
  have hlocne : LocationBlock.build
      { path := "/", exact := false, directives := [d], ifBlocks := [] }
      (("" ++ "    ") ++ "    ") ≠ "" :=
    str_append_ne_empty_right _ "\x7d" (by decide)
  have hsrv : ServerBlock.build
      { directives := ["listen 80;"],
        locations := [{ path := "/", exact := false, directives := [d], ifBlocks := [] }] }
      ("" ++ "    ")
      = ("" ++ "    ") ++ "server \x7b\n" ++ ((("" ++ "    ") ++ "    ") ++ "listen 80;")
        ++ ("\n\n" ++ LocationBlock.build
              { path := "/", exact := false, directives := [d], ifBlocks := [] }
              (("" ++ "    ") ++ "    "))
        ++ "\n" ++ ("" ++ "    ") ++ "\x7d" := by
    show ("" ++ "    ") ++ "server \x7b\n" ++ ((("" ++ "    ") ++ "    ") ++ "listen 80;")
        ++ (if LocationBlock.build
              { path := "/", exact := false, directives := [d], ifBlocks := [] }
              (("" ++ "    ") ++ "    ") != ""
            then "\n\n" ++ LocationBlock.build
              { path := "/", exact := false, directives := [d], ifBlocks := [] }
              (("" ++ "    ") ++ "    ")
            else "")
        ++ "\n" ++ ("" ++ "    ") ++ "\x7d" = _
    rw [ite_bne_true _ _ hlocne]
  have hNWsrv : hasNonWS (ServerBlock.build
      { directives := ["listen 80;"],
        locations := [{ path := "/", exact := false, directives := [d], ifBlocks := [] }] }
      ("" ++ "    ")) :=
    hasNonWS_append_right _ (by decide)
  have hcondsrv : (jsTrim (joinStr "\n\n" (List.map
      (fun s : ServerBlock => s.build ("" ++ "    "))
      [{ directives := ["listen 80;"],
         locations := [{ path := "/", exact := false, directives := [d],
                         ifBlocks := [] }] }])) != "") = true :=
    bne_iff_ne.mpr (jsTrim_ne_empty hNWsrv)
  have hfiltG : List.filter (fun p => jsTrim p != "")
      (HttpBlock.groups
        { servers := [{ directives := ["listen 80;"],
                        locations := [{ path := "/", exact := false, directives := [d],
                                        ifBlocks := [] }] }] }
        ("" ++ "    "))
      = [joinStr "\n\n" (List.map (fun s : ServerBlock => s.build ("" ++ "    "))
          [{ directives := ["listen 80;"],
             locations := [{ path := "/", exact := false, directives := [d],
                             ifBlocks := [] }] }])] := by
    simp only [HttpBlock.groups, List.map_nil, List.map_cons]
    exact filter_groups_single _ _ _ _ _ (by decide) (by decide) (by decide) (by decide)
      (by exact hcondsrv)
  have hne3 : jsTrim (joinStr "\n\n"
      [joinStr "\n\n" (List.map (fun s : ServerBlock => s.build ("" ++ "    "))
        [{ directives := ["listen 80;"],
           locations := [{ path := "/", exact := false, directives := [d],
                           ifBlocks := [] }] }])]) ≠ "" :=
    jsTrim_ne_empty hNWsrv
  have hhttp : HttpBlock.build
      { servers := [{ directives := ["listen 80;"],
                      locations := [{ path := "/", exact := false, directives := [d],
                                      ifBlocks := [] }] }] } ""
      = "" ++ "http \x7b\n"
        ++ joinStr "\n\n"
            [joinStr "\n\n" (List.map (fun s : ServerBlock => s.build ("" ++ "    "))
              [{ directives := ["listen 80;"],
                 locations := [{ path := "/", exact := false, directives := [d],
                                 ifBlocks := [] }] }])]
        ++ "\n" ++ "" ++ "\x7d" := by
    simp only [HttpBlock.build]
    rw [hfiltG]
    rw [ite_bne_true _ _ hne3]
  have hstart : NginxConfig.build (depthFamily d)
      = HttpBlock.build
          { servers := [{ directives := ["listen 80;"],
                          locations := [{ path := "/", exact := false, directives := [d],
                                          ifBlocks := [] }] }] } "" ++ "\n" := rfl
  rw [hstart, hhttp]
  simp only [List.map_cons, List.map_nil]
  rw [joinStr_single, joinStr_single, hsrv]
  rw [show ("http \x7b\n    server \x7b\n        listen 80;\n\n        location  / \x7b\n            " : String)
        = "http \x7b\n" ++ ("    " ++ ("server \x7b\n" ++ ("    " ++ ("    " ++ ("listen 80;"
          ++ ("\n\n" ++ ("    " ++ ("    " ++ ("location " ++ (" " ++ ("/" ++ (" \x7b\n"
          ++ ("    " ++ ("    " ++ "    ")))))))))))))) from by decide,
      show ("\n        \x7d\n    \x7d\n\x7d\n" : String)
        = "\n" ++ ("    " ++ ("    " ++ ("\x7d" ++ ("\n" ++ ("    " ++ ("\x7d" ++ ("\n"
          ++ ("\x7d" ++ "\n")))))))) from by decide]
  apply String.ext
  simp only [LocationBlock.build, formatDirectives, joinStr, List.map_cons, List.map_nil,
    bne_self_eq_false, Bool.false_eq_true, if_false, ite_false,
    String.data_append, str_empty_data, List.append_assoc, List.nil_append, List.append_nil]

end NginxCfg
